import Mathlib

/-!
Verification of the LexLens contract-analysis pipeline.

The development shallowly embeds the JavaScript services of the repository:

* `src/backend/src/services/clause.service.js`
  (`segmentClauses`, `classifyClause`, `extractClauseTitle`,
  `analyzeClauseRisk`, `extractAndClassifyClauses`),
* `src/backend/src/services/embedding.service.js`
  (`cosineSimilarity`, `formatEmbeddingForDB`, `parseEmbeddingFromDB`),
* the `extract-text` job handler of `src/backend/src/services/queue.service.js`.

Conventions of the embedding:

* JavaScript strings are `List Char` (`JStr`); JavaScript numbers are `ℚ`
  (the claims under study concern exact values such as `0`, `0.5` and
  score ratios, which IEEE doubles represent exactly or which the spec
  words as exact arithmetic).
* The JavaScript regular expressions appearing in the services are all of
  a very restricted shape: a case-insensitive alternation of literal
  strings, possibly with `.*` gaps, or anchored character-class scans.
  Each regex literal is carried as a `JsRegex` holding its `source` text
  (used by the risk flags) together with its test-equivalent normal form
  `Pat` (`/confidential(ity)?/` tests positively iff the text contains
  "confidential", `/terminat(e|ion)/` iff it contains "terminate" or
  "termination", `/beyond.*control/` iff "beyond" is followed by
  "control" with no line terminator in between, etc.).
* External npm libraries (the `natural` sentence tokenizer and the
  `compromise` entity extractor) are not code of this repository; they are
  passed as explicit parameters, and concrete spec-modelled instances are
  provided for evaluation.
* Database queries of the job handler are modelled as state on a
  `ProcessorOutcome` record; per-clause insert and embedding failures are
  oracles passed to the handler.
-/

set_option maxRecDepth 100000

namespace LexLens

/-- JavaScript strings, embedded as lists of characters. -/
abbrev JStr := List Char

/-- The JavaScript whitespace class `\s` (the members relevant to the
    sources: space, tab, newline, carriage return, vertical tab, form feed). -/
def jsSpace (c : Char) : Bool :=
  c = ' ' || c = '\t' || c = '\n' || c = '\r' || c = '\x0b' || c = '\x0c'

/-- JavaScript line terminators (what `.` refuses to match without the `s` flag):
    newline, carriage return, U+2028 and U+2029. -/
def isLineTerm (c : Char) : Bool :=
  c = '\n' || c = '\r' || c = '\u2028' || c = '\u2029'

/-- JavaScript `String.prototype.trim`: strip whitespace from both ends. -/
def trim (s : JStr) : JStr :=
  ((s.dropWhile jsSpace).reverse.dropWhile jsSpace).reverse

/-- Case-insensitive character comparison, as under the `/i` regex flag (ASCII folding). -/
def charEqCI (a b : Char) : Bool := a.toLower = b.toLower

/-- Does `hay` start with `needle`, comparing case-insensitively? -/
def startsWithCI : JStr → JStr → Bool
  | [], _ => true
  | _ :: _, [] => false
  | a :: as, b :: bs => charEqCI a b && startsWithCI as bs

/-- Does `hay` contain `needle` (case-insensitively)?  This is `regex.test`
    for a regex consisting of a literal string under the `/i` flag. -/
def containsCI (needle : JStr) : JStr → Bool
  | [] => startsWithCI needle []
  | c :: t => startsWithCI needle (c :: t) || containsCI needle t

/-- Match a line-terminator-free gap followed by `s2` against a suffix: either
    `s2` starts here, or consume one non-line-terminator character and continue. -/
def matchGapThen (s2 : JStr) : JStr → Bool
  | [] => startsWithCI s2 []
  | c :: cs => startsWithCI s2 (c :: cs) || (!isLineTerm c && matchGapThen s2 cs)

/-- Test for `/s1.*s2/i`: an occurrence of `s1` followed by `s2` with no line
    terminator in the gap. -/
def chain2 (s1 s2 : JStr) : JStr → Bool
  | [] => startsWithCI s1 [] && matchGapThen s2 []
  | c :: t => (startsWithCI s1 (c :: t) && matchGapThen s2 ((c :: t).drop s1.length))
      || chain2 s1 s2 t

/-- Test-equivalent normal form of the regex literals used by the services. -/
inductive Pat where
  /-- matches iff the text contains the literal -/
  | lit (s : String)
  /-- matches iff the text contains either literal -/
  | alt (s1 s2 : String)
  /-- matches iff the text contains `s1`, then `s2` after a line-terminator-free gap -/
  | gap (s1 s2 : String)
deriving DecidableEq, Repr

/-- Evaluate `regex.test(text)` for a normalized pattern. -/
def patTest : Pat → JStr → Bool
  | .lit s, t => containsCI s.data t
  | .alt s1 s2, t => containsCI s1.data t || containsCI s2.data t
  | .gap s1 s2, t => chain2 s1.data s2.data t

/-- A JavaScript regex literal: its `source` text (exposed through
    `pattern.source` in risk flags) and its test-equivalent `Pat`. -/
structure JsRegex where
  source : String
  pat : Pat
deriving DecidableEq, Repr

/-- The `CLAUSE_PATTERNS` table of `clause.service.js`, in declaration order. -/
def CLAUSE_PATTERNS : List (String × List JsRegex) := [
  ("confidentiality", [
    ⟨"confidential(ity)?", .lit "confidential"⟩,
    ⟨"non-disclosure", .lit "non-disclosure"⟩,
    ⟨"proprietary information", .lit "proprietary information"⟩,
    ⟨"trade secret", .lit "trade secret"⟩,
    ⟨"sensitive information", .lit "sensitive information"⟩]),
  ("termination", [
    ⟨"terminat(e|ion)", .alt "terminate" "termination"⟩,
    ⟨"cancel(lation)?", .lit "cancel"⟩,
    ⟨"end of (the )?agreement", .alt "end of agreement" "end of the agreement"⟩,
    ⟨"notice period", .lit "notice period"⟩,
    ⟨"expir(e|ation)", .alt "expire" "expiration"⟩]),
  ("liability", [
    ⟨"liabilit(y|ies)", .alt "liability" "liabilities"⟩,
    ⟨"indemnif(y|ication)", .alt "indemnify" "indemnification"⟩,
    ⟨"damages", .lit "damages"⟩,
    ⟨"limitation of liability", .lit "limitation of liability"⟩,
    ⟨"hold harmless", .lit "hold harmless"⟩]),
  ("payment", [
    ⟨"payment", .lit "payment"⟩,
    ⟨"fee(s)?", .lit "fee"⟩,
    ⟨"compensation", .lit "compensation"⟩,
    ⟨"invoice", .lit "invoice"⟩,
    ⟨"price", .lit "price"⟩,
    ⟨"cost", .lit "cost"⟩]),
  ("intellectual_property", [
    ⟨"intellectual property", .lit "intellectual property"⟩,
    ⟨"copyright", .lit "copyright"⟩,
    ⟨"patent", .lit "patent"⟩,
    ⟨"trademark", .lit "trademark"⟩,
    ⟨"ownership", .lit "ownership"⟩,
    ⟨"license", .lit "license"⟩]),
  ("governing_law", [
    ⟨"governing law", .lit "governing law"⟩,
    ⟨"jurisdiction", .lit "jurisdiction"⟩,
    ⟨"applicable law", .lit "applicable law"⟩,
    ⟨"venue", .lit "venue"⟩,
    ⟨"dispute resolution", .lit "dispute resolution"⟩]),
  ("warranty", [
    ⟨"warrant(y|ies)", .alt "warranty" "warranties"⟩,
    ⟨"representation", .lit "representation"⟩,
    ⟨"guarantee", .lit "guarantee"⟩,
    ⟨"assurance", .lit "assurance"⟩]),
  ("force_majeure", [
    ⟨"force majeure", .lit "force majeure"⟩,
    ⟨"act of god", .lit "act of god"⟩,
    ⟨"unforeseeable", .lit "unforeseeable"⟩,
    ⟨"beyond.*control", .gap "beyond" "control"⟩]),
  ("assignment", [
    ⟨"assignment", .lit "assignment"⟩,
    ⟨"transfer", .lit "transfer"⟩,
    ⟨"successor", .lit "successor"⟩,
    ⟨"assign.*rights", .gap "assign" "rights"⟩]),
  ("amendment", [
    ⟨"amendment", .lit "amendment"⟩,
    ⟨"modification", .lit "modification"⟩,
    ⟨"change.*agreement", .gap "change" "agreement"⟩,
    ⟨"written consent", .lit "written consent"⟩]),
  ("entire_agreement", [
    ⟨"entire agreement", .lit "entire agreement"⟩,
    ⟨"complete agreement", .lit "complete agreement"⟩,
    ⟨"supersede", .lit "supersede"⟩,
    ⟨"prior agreement", .lit "prior agreement"⟩]),
  ("severability", [
    ⟨"severabilit(y)?", .lit "severabilit"⟩,
    ⟨"invalid.*provision", .gap "invalid" "provision"⟩,
    ⟨"unenforceable", .lit "unenforceable"⟩])]

/-- The three fixed pattern tiers of `analyzeClauseRisk` (`riskIndicators`
    in `clause.service.js`).  The `low` tier is declared in the source but
    never consulted by the algorithm. -/
structure RiskIndicators where
  high : List JsRegex
  medium : List JsRegex
  low : List JsRegex

/-- The `riskIndicators` object literal of `analyzeClauseRisk`. -/
def riskIndicators : RiskIndicators where
  high := [
    ⟨"unlimited liability", .lit "unlimited liability"⟩,
    ⟨"sole discretion", .lit "sole discretion"⟩,
    ⟨"without notice", .lit "without notice"⟩,
    ⟨"automatic renewal", .lit "automatic renewal"⟩,
    ⟨"perpetual", .lit "perpetual"⟩,
    ⟨"irrevocable", .lit "irrevocable"⟩,
    ⟨"waive.*rights", .gap "waive" "rights"⟩,
    ⟨"indemnify.*all", .gap "indemnify" "all"⟩]
  medium := [
    ⟨"may terminate", .lit "may terminate"⟩,
    ⟨"at any time", .lit "at any time"⟩,
    ⟨"without cause", .lit "without cause"⟩,
    ⟨"exclusive", .lit "exclusive"⟩,
    ⟨"binding", .lit "binding"⟩,
    ⟨"non-refundable", .lit "non-refundable"⟩]
  low := [
    ⟨"reasonable", .lit "reasonable"⟩,
    ⟨"mutual", .lit "mutual"⟩,
    ⟨"written consent", .lit "written consent"⟩,
    ⟨"good faith", .lit "good faith"⟩,
    ⟨"commercially reasonable", .lit "commercially reasonable"⟩]

/-- One entry of the `flags` array pushed by `analyzeClauseRisk`. -/
structure RiskFlag where
  severity : String
  pattern : String
  message : String
deriving DecidableEq, Repr

/-- The flag pushed for a matching high-risk pattern. -/
def riskHighFlag (r : JsRegex) : RiskFlag :=
  ⟨"high", r.source, "This clause contains potentially unfavorable terms"⟩

/-- The flag pushed for a matching medium-risk pattern. -/
def riskMediumFlag (r : JsRegex) : RiskFlag :=
  ⟨"medium", r.source, "This clause may require careful review"⟩

/-- Return value of `analyzeClauseRisk`. -/
structure RiskResult where
  risk_level : String
  flags : List RiskFlag
  requires_review : Bool
deriving DecidableEq, Repr

/-- The `analyzeClauseRisk(text, clauseType)` function of `clause.service.js`.
    The source walks the high tier pushing a flag per match (setting the level
    to high on every match), then walks the medium tier only when the level is
    not high; `clauseType` (and the computed `lowerText`) are unused by the
    source. -/
def analyzeClauseRisk (text : JStr) (clauseType : String) : RiskResult :=
  let highMatches := riskIndicators.high.filter (fun r => patTest r.pat text)
  let mediumMatches := riskIndicators.medium.filter (fun r => patTest r.pat text)
  let riskLevel :=
    if highMatches.isEmpty then
      (if mediumMatches.isEmpty then "low" else "medium")
    else "high"
  let flags :=
    if highMatches.isEmpty then mediumMatches.map riskMediumFlag
    else highMatches.map riskHighFlag
  { risk_level := riskLevel, flags := flags, requires_review := riskLevel != "low" }

/-- Entity lists returned by the external `compromise` utility
    (`doc.dates()`, `doc.money()`, `doc.organizations()`, `doc.people()`). -/
structure Entities where
  dates : List JStr
  money : List JStr
  organizations : List JStr
  people : List JStr
deriving DecidableEq, Repr

/-- JavaScript `text.split(/\s+/)`: segments between maximal whitespace runs,
    with an empty leading (trailing) segment when the text starts (ends) with
    whitespace.  The `none` state is inside a whitespace run, `some acc` is
    building a segment. -/
def splitWsAux : JStr → Option JStr → List JStr
  | [], none => [[]]
  | [], some acc => [acc.reverse]
  | c :: cs, none =>
      if jsSpace c then splitWsAux cs none else splitWsAux cs (some [c])
  | c :: cs, some acc =>
      if jsSpace c then acc.reverse :: splitWsAux cs none
      else splitWsAux cs (some (c :: acc))

/-- JavaScript `text.split(/\s+/)`. -/
def splitWs (s : JStr) : List JStr := splitWsAux s (some [])

/-- Per-type match counts: `scores` in `classifyClause`, associating each
    clause type (in `Object.entries` order) with the number of its indicator
    patterns that match the text. -/
def clauseScores (text : JStr) : List (String × Nat) :=
  CLAUSE_PATTERNS.map (fun tp => (tp.1, (tp.2.filter (fun r => patTest r.pat text)).length))

/-- The maximum-finding loop of `classifyClause`: start from
    `('general', 0)` and overwrite only on a strictly greater score. -/
def pickBest (scores : List (String × Nat)) : String × Nat :=
  scores.foldl (fun acc ts => if ts.2 > acc.2 then ts else acc) ("general", 0)

/-- `totalMatches` in `classifyClause`: the sum of all scores. -/
def totalScore (text : JStr) : Nat :=
  ((clauseScores text).map Prod.snd).sum

/-- The winning score (`maxScore` in `classifyClause`). -/
def winningScore (text : JStr) : Nat := (pickBest (clauseScores text)).2

/-- Return value of `classifyClause`. -/
structure Classification where
  clause_type : String
  confidence : ℚ
  entities : Entities
  word_count : Nat
deriving DecidableEq, Repr

/-- The `classifyClause(text)` function of `clause.service.js`.  Entity
    extraction is delegated to the external `compromise` library, passed here
    as the parameter `entitiesOf`; the `lowerText` computed by the source is
    unused. -/
def classifyClause (entitiesOf : JStr → Entities) (text : JStr) : Classification :=
  let best := pickBest (clauseScores text)
  let totalMatches := totalScore text
  let confidence : ℚ := if totalMatches > 0 then (best.2 : ℚ) / (totalMatches : ℚ) else 1/2
  { clause_type := best.1
    confidence := min confidence 1
    entities := entitiesOf text
    word_count := (splitWs text).length }

/-- Matcher for the section-split regex of `segmentClauses`, applied to the
    text `cs` following a newline.  The pattern after the newline is: greedy
    whitespace, then the captured group `\\d+\\.` with an optional greedy
    `\\d+\\.?` tail (alternatives tried longest first, exactly as the
    backtracking engine does), then at least one (greedily consumed)
    whitespace character.  On success, returns the captured group and the
    number of characters of `cs` consumed by the match. -/
def matchAfterNl (cs : JStr) : Option (JStr × Nat) :=
  let cs1 := cs.dropWhile jsSpace
  let d1 := cs1.takeWhile Char.isDigit
  let cs2 := cs1.dropWhile Char.isDigit
  if d1.isEmpty then none else
  match cs2 with
  | '.' :: cs3 =>
    let d2 := cs3.takeWhile Char.isDigit
    let cs4 := cs3.dropWhile Char.isDigit
    let finish := fun (capTail restX : JStr) =>
      match restX with
      | c :: _ =>
          if jsSpace c then
            some (d1 ++ '.' :: capTail, cs.length - (restX.dropWhile jsSpace).length)
          else none
      | [] => none
    if d2.isEmpty then finish [] cs3
    else
      match cs4 with
      | '.' :: cs5 =>
        match finish (d2 ++ ['.']) cs5 with
        | some r => some r
        | none => finish d2 cs4
      | _ => finish d2 cs4
  | _ => none

/-- JavaScript split by the numbered-section regex of `segmentClauses`
    (a regex with one capturing group, so `split` interleaves the captured
    section numbers with the segments): scan left to right, at each newline
    try the matcher, and on a match emit the pending segment and the capture,
    resuming after the match.  The first argument is fuel, bounding the scan
    structurally so that evaluation is by kernel reduction; every step
    consumes at least one character, so the initial fuel `text.length` is
    never exhausted (the fuel-0 arm answers as if no further match existed). -/
def splitNumberedAux : Nat → JStr → JStr → List JStr
  | _, [], acc => [acc.reverse]
  | 0, s, acc => [acc.reverse ++ s]
  | fuel + 1, c :: cs, acc =>
    if c = '\n' then
      match matchAfterNl cs with
      | some (cap, k) => acc.reverse :: cap :: splitNumberedAux fuel (cs.drop k) []
      | none => splitNumberedAux fuel cs (c :: acc)
    else splitNumberedAux fuel cs (c :: acc)

/-- `text.split` on the numbered-section pattern, captures included. -/
def splitNumbered (text : JStr) : List JStr := splitNumberedAux text.length text []

/-- Index of the last newline of a string, if any. -/
def lastNlIdx : JStr → Option Nat
  | [] => none
  | c :: cs =>
    match lastNlIdx cs with
    | some j => some (j + 1)
    | none => if c = '\n' then some 0 else none

/-- Matcher for the paragraph-split regex (newline, greedy whitespace,
    newline) applied to the text `cs` following a newline: by backtracking of
    the greedy whitespace, the match extends to the last newline inside the
    maximal whitespace run.  Returns the number of characters of `cs`
    consumed. -/
def matchParaAfterNl (cs : JStr) : Option Nat :=
  match lastNlIdx (cs.takeWhile jsSpace) with
  | some j => some (j + 1)
  | none => none

/-- JavaScript split by the blank-line paragraph regex of `segmentClauses`,
    with the same structural fuel convention as `splitNumberedAux`. -/
def splitParagraphsAux : Nat → JStr → JStr → List JStr
  | _, [], acc => [acc.reverse]
  | 0, s, acc => [acc.reverse ++ s]
  | fuel + 1, c :: cs, acc =>
    if c = '\n' then
      match matchParaAfterNl cs with
      | some k => acc.reverse :: splitParagraphsAux fuel (cs.drop k) []
      | none => splitParagraphsAux fuel cs (c :: acc)
    else splitParagraphsAux fuel cs (c :: acc)

/-- `text.split` on the blank-line paragraph pattern. -/
def splitParagraphs (text : JStr) : List JStr := splitParagraphsAux text.length text []

/-- One clause candidate produced by `segmentClauses`. -/
structure SegClause where
  section_number : Option JStr
  text : JStr
  position : Nat
deriving DecidableEq, Repr

/-- The numbered-section loop of `segmentClauses`: consume (capture, section
    text) pairs; `k` is `Math.floor(i / 2)` for the loop counter `i`
    (which starts at 1 and advances by 2).  A pair is kept only when the
    trimmed section text is longer than 20 characters; a trailing lone
    capture has an undefined section text and is skipped. -/
def numberedLoop : List JStr → Nat → List SegClause
  | num :: text :: rest, k =>
    (if (trim text).length > 20 then
       [{ section_number := some num, text := trim text, position := k }]
     else []) ++ numberedLoop rest (k + 1)
  | _, _ => []

/-- The paragraph loop of `segmentClauses`: `k` is the `forEach` index;
    paragraphs of trimmed length at most 50 are skipped. -/
def paragraphLoop : List JStr → Nat → List SegClause
  | [], _ => []
  | para :: rest, k =>
    (if (trim para).length > 50 then
       [{ section_number := none, text := trim para, position := k }]
     else []) ++ paragraphLoop rest (k + 1)

/-- JavaScript `Array.prototype.join` with a separator. -/
def joinSep (sep : JStr) : List JStr → JStr
  | [] => []
  | [p] => p
  | p :: q :: rest => p ++ sep ++ joinSep sep (q :: rest)

/-- The body of the sentence-grouping fallback loop: keep a joined group of
    sentences when its trimmed length exceeds 50. -/
def sentenceGroupClause (clauseText : JStr) (k : Nat) : List SegClause :=
  if (trim clauseText).length > 50 then
    [{ section_number := none, text := trim clauseText, position := k }]
  else []

/-- The sentence-grouping fallback loop of `segmentClauses`: take runs of 3
    sentences (`slice(i, i + 3)`), join them with spaces, and keep the group
    when its trimmed length exceeds 50; `k` is
    `Math.floor(i / sentencesPerClause)`. -/
def sentenceLoop : List JStr → Nat → List SegClause
  | [], _ => []
  | [s], k => sentenceGroupClause (joinSep [' '] [s]) k
  | [s, t], k => sentenceGroupClause (joinSep [' '] [s, t]) k
  | s :: t :: u :: rest, k =>
    sentenceGroupClause (joinSep [' '] [s, t, u]) k ++ sentenceLoop rest (k + 1)

/-- The `segmentClauses(text)` function of `clause.service.js`.  The sentence
    tokenizer of the fallback strategy is the external `natural` library,
    passed as the parameter `tokenize`. -/
def segmentClauses (tokenize : JStr → List JStr) (text : JStr) : List SegClause :=
  let numberedSections := splitNumbered text
  let clauses :=
    if numberedSections.length > 3 then numberedLoop (numberedSections.drop 1) 0
    else paragraphLoop (splitParagraphs text) 0
  if clauses.isEmpty then sentenceLoop (tokenize text) 0 else clauses

/-- Modelled from the spec: the sentence tokenizer of the external `natural`
    library (`new natural.SentenceTokenizer()`), which is not part of this
    repository's sources; the spec only says the fallback strategy
    "tokenize[s] into sentences".  A sentence ends at sentence-final
    punctuation; a trailing run without punctuation is one sentence. -/
def sentenceTokenizeAux : JStr → JStr → List JStr
  | [], acc => if acc.isEmpty then [] else [acc.reverse]
  | c :: cs, acc =>
    if c = '.' || c = '!' || c = '?' then
      (acc.reverse ++ [c]) :: sentenceTokenizeAux cs []
    else sentenceTokenizeAux cs (c :: acc)

/-- Modelled from the spec: tokenize a text into sentences. -/
def sentenceTokenize (s : JStr) : List JStr := sentenceTokenizeAux s []

/-- Uppercase ASCII letter (the regex class `A-Z`). -/
def isUpper (c : Char) : Bool := 'A' ≤ c && c ≤ 'Z'

/-- Lowercase ASCII letter (the regex class `a-z`). -/
def isLowerAZ (c : Char) : Bool := 'a' ≤ c && c ≤ 'z'

/-- The character class of the all-caps title regexes. -/
def capsClass (c : Char) : Bool := isUpper c || jsSpace c

/-- The character class of the `Label:` title regex. -/
def mixedClass (c : Char) : Bool := isUpper c || isLowerAZ c || jsSpace c

/-- Greedy search for the bounded repetition `{3,50}` followed by a required
    character: the largest `k` with `3 ≤ k ≤ start` such that `rest` has
    `target` at index `k` (the first `k` characters of `rest` are known to lie
    in the class because `start` is capped by the class run length). -/
def findTargetDown (rest : JStr) (target : Char) : Nat → Option Nat
  | 0 => none
  | k + 1 =>
    if k + 1 < 3 then none
    else if (rest.drop (k + 1)).head? = some target then some (k + 1)
    else findTargetDown rest target k

/-- The first title pattern of `extractClauseTitle`: an all-caps heading
    (an uppercase letter, then 3 to 50 characters of uppercase letters and
    whitespace, greedily) terminated by a newline, anchored at the start;
    the trimmed capture is the title. -/
def capsTitle (text : JStr) : Option JStr :=
  match text with
  | c :: rest =>
    if isUpper c then
      match findTargetDown rest '\n' (min 50 (rest.takeWhile capsClass).length) with
      | some k => some (trim (c :: rest.take k))
      | none => none
    else none
  | [] => none

/-- The second title pattern of `extractClauseTitle`: digits, an optional
    dot, whitespace, then an all-caps group of 3 to 50 class characters
    (greedy, no trailing requirement), anchored at the start. -/
def numberedTitle (text : JStr) : Option JStr :=
  if (text.takeWhile Char.isDigit).isEmpty then none else
  let r1 := text.dropWhile Char.isDigit
  let r2 := match r1 with | '.' :: t => t | _ => r1
  match r2 with
  | c :: _ =>
    if jsSpace c then
      match r2.dropWhile jsSpace with
      | u :: rest =>
        if isUpper u then
          if min 50 (rest.takeWhile capsClass).length ≥ 3 then
            some (trim (u :: rest.take (min 50 (rest.takeWhile capsClass).length)))
          else none
        else none
      | [] => none
    else none
  | [] => none

/-- The third title pattern of `extractClauseTitle`: an uppercase letter,
    3 to 50 letters or whitespace (greedy), then a colon, anchored at the
    start. -/
def labelTitle (text : JStr) : Option JStr :=
  match text with
  | c :: rest =>
    if isUpper c then
      match findTargetDown rest ':' (min 50 (rest.takeWhile mixedClass).length) with
      | some k => some (trim (c :: rest.take k))
      | none => none
    else none
  | [] => none

/-- The `extractClauseTitle(text)` function of `clause.service.js`: try the
    three anchored regexes in order, then fall back to the first sentence
    truncated to 50 characters plus an ellipsis (when it is shorter than 100
    characters), else no title.  The sentence tokenizer is the external
    `natural` library, passed as `tokenize`. -/
def extractClauseTitle (tokenize : JStr → List JStr) (text : JStr) : Option JStr :=
  match capsTitle text with
  | some t => some t
  | none =>
    match numberedTitle text with
    | some t => some t
    | none =>
      match labelTitle text with
      | some t => some t
      | none =>
        match tokenize text with
        | s0 :: _ => if s0.length < 100 then some (s0.take 50 ++ "...".data) else none
        | [] => none

/-- The external collaborators of the clause pipeline: the `natural`
    sentence tokenizer and the `compromise` entity extractor, which are npm
    libraries and not sources of this repository. -/
structure ExternalDeps where
  tokenize : JStr → List JStr
  entitiesOf : JStr → Entities

/-- One fully processed clause, as assembled by `extractAndClassifyClauses`. -/
structure ProcessedClause where
  position : Nat
  section_number : Option JStr
  title : Option JStr
  text : JStr
  clause_type : String
  confidence : ℚ
  entities : Entities
  word_count : Nat
  risk_level : String
  risk_flags : List RiskFlag
  requires_review : Bool
deriving DecidableEq, Repr

/-- The `extractAndClassifyClauses(text)` function of `clause.service.js`:
    segment, then classify, title-extract and risk-score each clause (the
    `map` index of the source is unused). -/
def extractAndClassifyClauses (deps : ExternalDeps) (text : JStr) : List ProcessedClause :=
  (segmentClauses deps.tokenize text).map (fun clause =>
    let classification := classifyClause deps.entitiesOf clause.text
    let title := extractClauseTitle deps.tokenize clause.text
    let risk := analyzeClauseRisk clause.text classification.clause_type
    { position := clause.position
      section_number := clause.section_number
      title := title
      text := clause.text
      clause_type := classification.clause_type
      confidence := classification.confidence
      entities := classification.entities
      word_count := classification.word_count
      risk_level := risk.risk_level
      risk_flags := risk.flags
      requires_review := risk.requires_review })

/-- Modelled from the spec: entity extraction is "delegated to a
    natural-language utility" (the external `compromise` library, not in this
    repository's sources) whose "extraction quality is accepted as-is"; the
    default model used for concrete evaluation extracts nothing. -/
def noEntities : JStr → Entities := fun _ => ⟨[], [], [], []⟩

/-- The external dependencies instantiated with the spec-modelled tokenizer
    and entity extractor, for concrete evaluation. -/
def specDeps : ExternalDeps := ⟨sentenceTokenize, noEntities⟩

/-- Sum of squares of a vector: the `norm` accumulators of
    `cosineSimilarity` before the square root is taken. -/
def magSq (v : List ℚ) : ℚ := v.foldl (fun a x => a + x * x) 0

/-- The `cosineSimilarity(embedding1, embedding2)` function of
    `embedding.service.js`.  `Math.sqrt` has no exact rational counterpart
    and is passed as the parameter `sqrt`; thrown errors are modelled as
    `Except.error` carrying the `Error` message. -/
def cosineSimilarity (sqrt : ℚ → ℚ) (embedding1 embedding2 : List ℚ) :
    Except String ℚ :=
  if embedding1.length ≠ embedding2.length then
    Except.error "Embeddings must have the same dimension"
  else
    let dotProduct := (embedding1.zip embedding2).foldl (fun a p => a + p.1 * p.2) 0
    let norm1 := sqrt (magSq embedding1)
    let norm2 := sqrt (magSq embedding2)
    if norm1 = 0 ∨ norm2 = 0 then Except.ok 0
    else Except.ok (dotProduct / (norm1 * norm2))

/-- The `formatEmbeddingForDB(embedding)` function of
    `embedding.service.js`: a bracketed comma-joined rendering of the vector.
    The JavaScript number-to-string conversion performed by `join` is the
    parameter `numToStr`. -/
def formatEmbeddingForDB (numToStr : ℚ → JStr) (embedding : List ℚ) : JStr :=
  '[' :: joinSep [','] (embedding.map numToStr) ++ [']']

/-- Strip one leading opening bracket, when present (the `^\\[` alternative
    of the bracket-stripping replace of `parseEmbeddingFromDB`). -/
def stripLeadBracket : JStr → JStr
  | '[' :: rest => rest
  | s => s

/-- Strip one trailing closing bracket, when present (the `\\]$` alternative
    of the bracket-stripping replace of `parseEmbeddingFromDB`). -/
def stripTrailBracket (s : JStr) : JStr :=
  match s.reverse with
  | ']' :: r => r.reverse
  | _ => s

/-- The bracket-stripping replace (global, both anchored alternatives) of
    `parseEmbeddingFromDB`. -/
def stripVectorBrackets (s : JStr) : JStr := stripTrailBracket (stripLeadBracket s)

/-- JavaScript `split(',')` (string separator): accumulate the current
    segment, emitting it at each comma; the empty string splits to `[""]`. -/
def splitCommaAux : JStr → JStr → List JStr
  | [], acc => [acc.reverse]
  | c :: cs, acc =>
    if c = ',' then acc.reverse :: splitCommaAux cs []
    else splitCommaAux cs (c :: acc)

/-- JavaScript `vectorString.split(',')`. -/
def splitComma (s : JStr) : List JStr := splitCommaAux s []

/-- The `parseEmbeddingFromDB(vectorString)` function of
    `embedding.service.js`: strip brackets, split on commas and map the
    JavaScript `parseFloat` (the parameter `parseF`; note
    `parseFloat('')` is `NaN`, which `ℚ` cannot represent, hence the
    abstract codomain). -/
def parseEmbeddingFromDB (parseF : JStr → β) (vectorString : JStr) : List β :=
  (splitComma (stripVectorBrackets vectorString)).map parseF

/-- Result of the external `extractText` collaborator
    (`extraction.service.js`, which reads files through external parsers):
    the extracted text and the metadata fields consumed by the job handler. -/
structure Extraction where
  text : JStr
  pages : Nat
  wordCount : Nat
deriving DecidableEq, Repr

/-- The `result` summary recorded on the `processing_jobs` row when the
    `extract-text` handler completes. -/
structure JobSummary where
  success : Bool
  textLength : Nat
  pages : Nat
  wordCount : Nat
  clauseCount : Nat
deriving DecidableEq, Repr

/-- One row of the `clauses` table as inserted by the handler: the processed
    clause columns together with the formatted embedding string. -/
structure PersistedClause where
  clause : ProcessedClause
  embedding : JStr
deriving DecidableEq, Repr

/-- Observable final state of one `extract-text` job run: the contract
    (Document) status, the processing-job status with its error and result
    columns, the clause rows inserted during the run, and the error the
    handler re-throws to the queue, if any. -/
structure ProcessorOutcome where
  docStatus : String
  jobStatus : String
  jobError : Option JStr
  jobResult : Option JobSummary
  persisted : List PersistedClause
  rethrown : Option JStr
deriving Repr

/-- Is an `Except` a success? -/
def isOkE : Except ε α → Bool
  | .ok _ => true
  | .error _ => false

/-- The per-clause loop of the `extract-text` handler: for each clause
    generate an embedding (the external model, oracle `embedOf`), format it,
    and insert the row (the database, oracle `insertRes`); any failure inside
    the per-clause `try` is caught and logged, and the loop proceeds with the
    remaining clauses. -/
def persistLoop (numToStr : ℚ → JStr) (embedOf : JStr → Except JStr (List ℚ))
    (insertRes : ProcessedClause → Except JStr Unit) :
    List ProcessedClause → List PersistedClause
  | [] => []
  | c :: rest =>
    (match embedOf c.text with
     | .error _ => []
     | .ok emb =>
       match insertRes c with
       | .error _ => []
       | .ok _ => [{ clause := c, embedding := formatEmbeddingForDB numToStr emb }])
      ++ persistLoop numToStr embedOf insertRes rest

/-- The `contractQueue.process('extract-text', ...)` handler of
    `queue.service.js`.  The text extraction outcome is the input
    `extraction`; `numToStr` is the JavaScript number-to-string conversion
    used when formatting embeddings.  Database `UPDATE` queries are modelled
    as always succeeding (their effect is the recorded outcome); the unused
    `getFileSize` call of the source never throws.  On extraction failure the
    `catch` block marks the contract and the job failed, records the error
    message, and re-throws; on success every clause is attempted, the
    contract becomes `analyzed` and the job completes with a summary whose
    `clauseCount` is `clauses.length`. -/
def processExtractText (deps : ExternalDeps) (numToStr : ℚ → JStr)
    (extraction : Except JStr Extraction)
    (embedOf : JStr → Except JStr (List ℚ))
    (insertRes : ProcessedClause → Except JStr Unit) : ProcessorOutcome :=
  match extraction with
  | .error e =>
    { docStatus := "failed", jobStatus := "failed", jobError := some e,
      jobResult := none, persisted := [], rethrown := some e }
  | .ok ex =>
    let clauses := extractAndClassifyClauses deps ex.text
    { docStatus := "analyzed", jobStatus := "completed", jobError := none,
      jobResult := some { success := true, textLength := ex.text.length,
                          pages := ex.pages, wordCount := ex.wordCount,
                          clauseCount := clauses.length },
      persisted := persistLoop numToStr embedOf insertRes clauses,
      rethrown := none }

/-- Concrete contract text with ten numbered sections, used to evaluate the
    ten-clause partial-failure scenario. -/
def wText : JStr :=
  ("\n1. aaaaaaaaaaaaaaaaaaaaaa\n2. bbbbbbbbbbbbbbbbbbbbbb\n3. cccccccccccccccccccccc\n4. dddddddddddddddddddddd\n5. eeeeeeeeeeeeeeeeeeeeee\n6. ffffffffffffffffffffff\n7. gggggggggggggggggggggg\n8. hhhhhhhhhhhhhhhhhhhhhh\n9. iiiiiiiiiiiiiiiiiiiiii\n10. jjjjjjjjjjjjjjjjjjjjjj").data

/-- An embedding oracle failing exactly on the third section's text. -/
def wEmbedOf : JStr → Except JStr (List ℚ) :=
  fun t => if t = List.replicate 22 'c' then Except.error "model failure".data
    else Except.ok [1]

/-- Concrete contract text with two numbered sections. -/
def c3Text : JStr :=
  "\n1. aaaaaaaaaaaaaaaaaaaaaa\n2. bbbbbbbbbbbbbbbbbbbbbb".data

/-- An embedding oracle failing exactly on the first section's text. -/
def c3EmbedOf : JStr → Except JStr (List ℚ) :=
  fun t => if t = List.replicate 22 'a' then Except.error "boom".data
    else Except.ok [1]

/-! Theorems.  Claim theorems are named `c1_...` through `c10_...`. -/

theorem numberedLoop_le_position : ∀ (l : List JStr) (k : Nat),
    ∀ c ∈ numberedLoop l k, k ≤ c.position
  | [], _ => by simp [numberedLoop]
  | [_], _ => by simp [numberedLoop]
  | _ :: _ :: rest, k => by
    intro c hc
    simp only [numberedLoop, List.mem_append] at hc
    rcases hc with hc | hc
    · split at hc
      · simp only [List.mem_singleton] at hc
        subst hc
        exact Nat.le_refl k
      · simp at hc
    · exact Nat.le_of_succ_le (numberedLoop_le_position rest (k + 1) c hc)

theorem numberedLoop_pairwise : ∀ (l : List JStr) (k : Nat),
    (numberedLoop l k).Pairwise (fun a b => a.position < b.position)
  | [], _ => by simp [numberedLoop]
  | [_], _ => by simp [numberedLoop]
  | _ :: _ :: rest, k => by
    have ih := numberedLoop_pairwise rest (k + 1)
    have lb := numberedLoop_le_position rest (k + 1)
    simp only [numberedLoop]
    split
    · rw [List.singleton_append]
      exact List.Pairwise.cons (fun b hb => lb b hb) ih
    · simpa using ih

theorem paragraphLoop_le_position : ∀ (l : List JStr) (k : Nat),
    ∀ c ∈ paragraphLoop l k, k ≤ c.position
  | [], _ => by simp [paragraphLoop]
  | _ :: rest, k => by
    intro c hc
    simp only [paragraphLoop, List.mem_append] at hc
    rcases hc with hc | hc
    · split at hc
      · simp only [List.mem_singleton] at hc
        subst hc
        exact Nat.le_refl k
      · simp at hc
    · exact Nat.le_of_succ_le (paragraphLoop_le_position rest (k + 1) c hc)

theorem paragraphLoop_pairwise : ∀ (l : List JStr) (k : Nat),
    (paragraphLoop l k).Pairwise (fun a b => a.position < b.position)
  | [], _ => by simp [paragraphLoop]
  | _ :: rest, k => by
    have ih := paragraphLoop_pairwise rest (k + 1)
    have lb := paragraphLoop_le_position rest (k + 1)
    simp only [paragraphLoop]
    split
    · rw [List.singleton_append]
      exact List.Pairwise.cons (fun b hb => lb b hb) ih
    · simpa using ih

theorem sentenceGroupClause_position (clauseText : JStr) (k : Nat) :
    ∀ c ∈ sentenceGroupClause clauseText k, c.position = k := by
  intro c hc
  simp only [sentenceGroupClause] at hc
  split at hc
  · simp only [List.mem_singleton] at hc
    subst hc
    rfl
  · simp at hc

theorem sentenceLoop_le_position : ∀ (l : List JStr) (k : Nat),
    ∀ c ∈ sentenceLoop l k, k ≤ c.position
  | [], _ => by simp [sentenceLoop]
  | [s], k => by
    intro c hc
    rw [sentenceGroupClause_position _ k c hc]
  | [s, t], k => by
    intro c hc
    rw [sentenceGroupClause_position _ k c hc]
  | s :: t :: u :: rest, k => by
    intro c hc
    simp only [sentenceLoop, List.mem_append] at hc
    rcases hc with hc | hc
    · rw [sentenceGroupClause_position _ k c hc]
    · exact Nat.le_of_succ_le (sentenceLoop_le_position rest (k + 1) c hc)

theorem sentenceGroupClause_pairwise (clauseText : JStr) (k : Nat) :
    (sentenceGroupClause clauseText k).Pairwise (fun a b => a.position < b.position) := by
  simp only [sentenceGroupClause]
  split <;> simp

theorem sentenceLoop_pairwise : ∀ (l : List JStr) (k : Nat),
    (sentenceLoop l k).Pairwise (fun a b => a.position < b.position)
  | [], _ => by simp [sentenceLoop]
  | [s], _ => sentenceGroupClause_pairwise _ _
  | [s, t], _ => sentenceGroupClause_pairwise _ _
  | s :: t :: u :: rest, k => by
    have ih := sentenceLoop_pairwise rest (k + 1)
    have lb := sentenceLoop_le_position rest (k + 1)
    simp only [sentenceLoop, sentenceGroupClause]
    split
    · rw [List.singleton_append]
      exact List.Pairwise.cons (fun b hb => lb b hb) ih
    · simpa using ih

/-- C1 (amended): for every tokenizer and every input text, the positions of
    the clauses returned by `segmentClauses` are strictly increasing in
    output order.  (As the counterexample shows, the remainder of the claim
    fails: the output can be empty for non-empty input, and positions are
    neither necessarily zero-based nor contiguous, because candidate
    segments at or below the length thresholds are skipped without
    renumbering.) -/
theorem c1_positions_strictly_increasing (tokenize : JStr → List JStr) (text : JStr) :
    (segmentClauses tokenize text).Pairwise (fun a b => a.position < b.position) := by
  simp only [segmentClauses]
  split
  · split
    · exact sentenceLoop_pairwise _ 0
    · exact numberedLoop_pairwise _ 0
  · split
    · exact sentenceLoop_pairwise _ 0
    · exact paragraphLoop_pairwise _ 0

/-- C1 counterexample: with the spec-modelled sentence tokenizer, the
    non-empty input "hi" yields zero clauses (refuting "at least one
    clause"); a text whose first paragraph is at most 50 characters yields
    the single position 1 (refuting "zero-based"); a text whose middle
    paragraph is at most 50 characters yields positions 0 and 2 (refuting
    "contiguous"). -/
theorem c1_counterexample :
    segmentClauses sentenceTokenize "hi".data = [] ∧
    (segmentClauses sentenceTokenize
      ("short\n\nLorem ipsum dolor sit amet consectetur adipiscing elitx sed do".data)).map
        SegClause.position = [1] ∧
    (segmentClauses sentenceTokenize
      ("Lorem ipsum dolor sit amet consectetur adipiscing elitx sed doA\n\nshort\n\nLorem ipsum dolor sit amet consectetur adipiscing elitx sed doB".data)).map
        SegClause.position = [0, 2] := by
  refine ⟨by decide, by decide, by decide⟩

theorem foldl_pick_mem : ∀ (l : List (String × Nat)) (acc : String × Nat),
    l.foldl (fun a ts => if ts.2 > a.2 then ts else a) acc = acc ∨
    l.foldl (fun a ts => if ts.2 > a.2 then ts else a) acc ∈ l
  | [], acc => Or.inl rfl
  | t :: rest, acc => by
    rcases foldl_pick_mem rest (if t.2 > acc.2 then t else acc) with h | h
    · simp only [List.foldl_cons, h]
      split
      · exact Or.inr (List.mem_cons_self t rest)
      · exact Or.inl rfl
    · exact Or.inr (List.mem_cons_of_mem t h)

theorem pickBest_fst_mem (scores : List (String × Nat)) :
    (pickBest scores).1 = "general" ∨ (pickBest scores).1 ∈ scores.map Prod.fst := by
  rcases foldl_pick_mem scores ("general", 0) with h | h
  · left
    rw [pickBest, h]
  · right
    exact List.mem_map_of_mem Prod.fst h

theorem pickBest_snd_le_sum (scores : List (String × Nat)) :
    (pickBest scores).2 ≤ (scores.map Prod.snd).sum := by
  rcases foldl_pick_mem scores ("general", 0) with h | h
  · rw [pickBest, h]
    exact Nat.zero_le _
  · exact List.single_le_sum (fun x _ => Nat.zero_le x) _
      (List.mem_map_of_mem Prod.snd h)

theorem clauseScores_fst (text : JStr) :
    (clauseScores text).map Prod.fst = CLAUSE_PATTERNS.map Prod.fst := by
  simp [clauseScores, List.map_map]

theorem totalScore_eq (text : JStr) :
    totalScore text = ((clauseScores text).map Prod.snd).sum := rfl

/-- C5: for every entity extractor and every text, `classifyClause` returns a
    clause type from the fixed vocabulary (the twelve declared types or
    "general") and a confidence in the interval from 0 to 1; the confidence
    is exactly one half when zero indicator patterns matched across all
    types, and otherwise equals the winning score divided by the sum of all
    types' scores, capped at 1. -/
theorem c5_classification (entitiesOf : JStr → Entities) (text : JStr) :
    ((classifyClause entitiesOf text).clause_type ∈
        "general" :: CLAUSE_PATTERNS.map Prod.fst ∧
      CLAUSE_PATTERNS.length = 12) ∧
    (0 ≤ (classifyClause entitiesOf text).confidence ∧
      (classifyClause entitiesOf text).confidence ≤ 1) ∧
    (totalScore text = 0 → (classifyClause entitiesOf text).confidence = 1/2) ∧
    (0 < totalScore text →
      (classifyClause entitiesOf text).confidence =
        min ((winningScore text : ℚ) / (totalScore text : ℚ)) 1) := by
  refine ⟨⟨?_, by decide⟩, ⟨?_, ?_⟩, ?_, ?_⟩
  · show (pickBest (clauseScores text)).1 ∈ "general" :: CLAUSE_PATTERNS.map Prod.fst
    rcases pickBest_fst_mem (clauseScores text) with h | h
    · rw [h]
      exact List.mem_cons_self _ _
    · rw [clauseScores_fst] at h
      exact List.mem_cons_of_mem _ h
  · show 0 ≤ min (if totalScore text > 0 then
        ((pickBest (clauseScores text)).2 : ℚ) / (totalScore text : ℚ) else 1/2) 1
    refine le_min ?_ (by norm_num)
    split
    · positivity
    · norm_num
  · show min (if totalScore text > 0 then
        ((pickBest (clauseScores text)).2 : ℚ) / (totalScore text : ℚ) else 1/2) 1 ≤ 1
    exact min_le_right _ 1
  · intro h
    show min (if totalScore text > 0 then
        ((pickBest (clauseScores text)).2 : ℚ) / (totalScore text : ℚ) else 1/2) 1 = 1/2
    rw [h]
    norm_num
  · intro h
    show min (if totalScore text > 0 then
        ((pickBest (clauseScores text)).2 : ℚ) / (totalScore text : ℚ) else 1/2) 1 =
      min ((winningScore text : ℚ) / (totalScore text : ℚ)) 1
    rw [if_pos h]
    rfl

/-- C5 witness: a text matching no indicator pattern has confidence exactly
    one half, and a text with matches takes the capped ratio form. -/
theorem c5_witness :
    (classifyClause noEntities "zzz qqq".data).confidence = 1/2 ∧
    (classifyClause noEntities "the payment fee".data).confidence =
      min ((winningScore "the payment fee".data : ℚ) /
        (totalScore "the payment fee".data : ℚ)) 1 ∧
    (classifyClause noEntities "zzz qqq".data).clause_type ∈
      "general" :: CLAUSE_PATTERNS.map Prod.fst := by
  refine ⟨(c5_classification noEntities "zzz qqq".data).2.2.1 (by decide),
    (c5_classification noEntities "the payment fee".data).2.2.2 (by decide),
    (c5_classification noEntities "zzz qqq".data).1.1⟩

theorem high_filter_not_empty {text : JStr}
    (h : ∃ r ∈ riskIndicators.high, patTest r.pat text = true) :
    (riskIndicators.high.filter (fun r => patTest r.pat text)).isEmpty = false := by
  obtain ⟨r, hr, hp⟩ := h
  have : r ∈ riskIndicators.high.filter (fun r => patTest r.pat text) :=
    List.mem_filter.mpr ⟨hr, hp⟩
  rcases he : riskIndicators.high.filter (fun r => patTest r.pat text) with _ | _
  · rw [he] at this
    simp at this
  · rw [he]
    rfl

/-- C6: for every clause text matching at least one high-risk indicator
    pattern, `analyzeClauseRisk` returns risk level "high" with
    `requires_review` true, regardless of medium or low tier patterns, and
    its flags are exactly one severity-high flag per matching high-risk
    pattern, carrying the matched pattern source and the fixed message, in
    table order and without deduplication; no medium flag is emitted. -/
theorem c6_high_risk_dominates (text : JStr) (ct : String)
    (h : ∃ r ∈ riskIndicators.high, patTest r.pat text = true) :
    (analyzeClauseRisk text ct).risk_level = "high" ∧
    (analyzeClauseRisk text ct).requires_review = true ∧
    (analyzeClauseRisk text ct).flags =
      (riskIndicators.high.filter (fun r => patTest r.pat text)).map riskHighFlag := by
  have hne := high_filter_not_empty h
  refine ⟨?_, ?_, ?_⟩ <;> simp [analyzeClauseRisk, hne]

/-- C6 witness: a text matching the high pattern `perpetual` and the medium
    pattern `binding` is still rated high, with exactly the one high flag. -/
theorem c6_witness :
    (analyzeClauseRisk "perpetual and binding obligations".data "general").risk_level =
      "high" ∧
    (analyzeClauseRisk "perpetual and binding obligations".data "general").requires_review =
      true ∧
    (analyzeClauseRisk "perpetual and binding obligations".data "general").flags =
      [⟨"high", "perpetual", "This clause contains potentially unfavorable terms"⟩] := by
  have h := c6_high_risk_dominates "perpetual and binding obligations".data "general"
    (by decide)
  exact ⟨h.1, h.2.1, h.2.2.trans (by decide)⟩

/-- C7: for every clause text and clause type, the `requires_review` value
    returned by `analyzeClauseRisk` is true exactly when the returned risk
    level is not "low". -/
theorem c7_requires_review_iff_not_low (text : JStr) (ct : String) :
    (analyzeClauseRisk text ct).requires_review = true ↔
      (analyzeClauseRisk text ct).risk_level ≠ "low" := by
  cases h1 : (riskIndicators.high.filter (fun r => patTest r.pat text)).isEmpty <;>
    cases h2 : (riskIndicators.medium.filter (fun r => patTest r.pat text)).isEmpty <;>
      simp [analyzeClauseRisk, h1, h2]

/-- C8: `cosineSimilarity` on vectors of differing length fails with the
    dimension-mismatch error, and on equal-length vectors where either has
    zero magnitude (sum of squares zero) it returns 0 instead of dividing;
    the square-root hypothesis `sqrt 0 = 0` is the only property of
    `Math.sqrt` the zero branch uses. -/
theorem c8_cosine_similarity (sqrt : ℚ → ℚ) (v w : List ℚ) :
    (v.length ≠ w.length →
      cosineSimilarity sqrt v w = .error "Embeddings must have the same dimension") ∧
    (sqrt 0 = 0 → v.length = w.length → magSq v = 0 ∨ magSq w = 0 →
      cosineSimilarity sqrt v w = .ok 0) := by
  constructor
  · intro h
    rw [cosineSimilarity, if_pos h]
  · intro hs hl hz
    rw [cosineSimilarity, if_neg (by simp [hl])]
    have hzero : sqrt (magSq v) = 0 ∨ sqrt (magSq w) = 0 := by
      rcases hz with h | h
      · left
        rw [h, hs]
      · right
        rw [h, hs]
    simp only [if_pos hzero]

/-- C8 witness: a length-1 and a length-0 vector mismatch; a zero vector
    against a nonzero one yields similarity 0 (with the identity standing in
    for the square root, which satisfies `sqrt 0 = 0`). -/
theorem c8_witness :
    cosineSimilarity id [(1 : ℚ)] [] = .error "Embeddings must have the same dimension" ∧
    cosineSimilarity id [(0 : ℚ)] [(5 : ℚ)] = .ok 0 := by
  refine ⟨(c8_cosine_similarity id [(1 : ℚ)] []).1 (by decide),
    (c8_cosine_similarity id [(0 : ℚ)] [(5 : ℚ)]).2 rfl rfl (Or.inl ?_)⟩
  show (0 : ℚ) + 0 * 0 = 0
  norm_num

theorem splitCommaAux_no_comma : ∀ (p acc : JStr), ',' ∉ p →
    splitCommaAux p acc = [acc.reverse ++ p]
  | [], acc => by simp [splitCommaAux]
  | c :: t, acc => by
    intro h
    have hc : ¬(c = ',') := fun hc => h (hc ▸ List.mem_cons_self c t)
    rw [splitCommaAux, if_neg hc,
      splitCommaAux_no_comma t (c :: acc) (fun ht => h (List.mem_cons_of_mem c ht))]
    simp

theorem splitCommaAux_append : ∀ (p rest acc : JStr), ',' ∉ p →
    splitCommaAux (p ++ ',' :: rest) acc = (acc.reverse ++ p) :: splitCommaAux rest []
  | [], rest, acc => by simp [splitCommaAux]
  | c :: t, rest, acc => by
    intro h
    have hc : ¬(c = ',') := fun hc => h (hc ▸ List.mem_cons_self c t)
    rw [List.cons_append, splitCommaAux, if_neg hc,
      splitCommaAux_append t rest (c :: acc) (fun ht => h (List.mem_cons_of_mem c ht))]
    simp

theorem splitComma_joinSep : ∀ (ps : List JStr), ps ≠ [] → (∀ p ∈ ps, ',' ∉ p) →
    splitComma (joinSep [','] ps) = ps
  | [], h, _ => absurd rfl h
  | [p], _, h => by
    rw [joinSep, splitComma, splitCommaAux_no_comma p [] (h p (List.mem_cons_self p []))]
    simp
  | p :: q :: rest, _, h => by
    have hj : joinSep [','] (p :: q :: rest) = p ++ ',' :: joinSep [','] (q :: rest) := by
      rw [joinSep]
      simp
    rw [splitComma, hj,
      splitCommaAux_append p (joinSep [','] (q :: rest)) [] (h p (List.mem_cons_self p _))]
    have ih := splitComma_joinSep (q :: rest) (by simp)
      (fun x hx => h x (List.mem_cons_of_mem p hx))
    rw [splitComma] at ih
    rw [ih]
    simp

theorem stripTrailBracket_append (body : JStr) :
    stripTrailBracket (body ++ [']']) = body := by
  have h1 : (body ++ [']']).reverse = ']' :: body.reverse := by simp
  unfold stripTrailBracket
  rw [h1]
  simp

theorem stripVectorBrackets_wrap (body : JStr) :
    stripVectorBrackets ('[' :: body ++ [']']) = body := by
  show stripTrailBracket (stripLeadBracket ('[' :: (body ++ [']']))) = body
  rw [show stripLeadBracket ('[' :: (body ++ [']'])) = body ++ [']'] from rfl]
  exact stripTrailBracket_append body

theorem parse_format_roundtrip (numToStr : ℚ → JStr) (parseF : JStr → ℚ)
    (v : List ℚ) (hv : v ≠ [])
    (hinv : ∀ x ∈ v, parseF (numToStr x) = x)
    (hcomma : ∀ x ∈ v, ',' ∉ numToStr x) :
    parseEmbeddingFromDB parseF (formatEmbeddingForDB numToStr v) = v := by
  rw [parseEmbeddingFromDB, formatEmbeddingForDB, stripVectorBrackets_wrap,
    splitComma_joinSep (v.map numToStr) (by simpa using hv)
      (by
        intro p hp
        obtain ⟨x, hx, rfl⟩ := List.mem_map.mp hp
        exact hcomma x hx),
    List.map_map]
  calc v.map (parseF ∘ numToStr) = v.map id := by
        apply List.map_congr_left
        intro x hx
        exact hinv x hx
    _ = v := List.map_id v

/-- C9: for every embedding vector of the generator's fixed dimension 384,
    formatting with `formatEmbeddingForDB` and parsing back with
    `parseEmbeddingFromDB` returns the original vector, given that the
    JavaScript number serialization round-trips element values (the
    "within floating tolerance" of the claim; in JavaScript
    `parseFloat(String(x))` recovers `x` exactly) and emits no comma. -/
theorem c9_embedding_roundtrip (numToStr : ℚ → JStr) (parseF : JStr → ℚ)
    (v : List ℚ) (hdim : v.length = 384)
    (hinv : ∀ x ∈ v, parseF (numToStr x) = x)
    (hcomma : ∀ x ∈ v, ',' ∉ numToStr x) :
    parseEmbeddingFromDB parseF (formatEmbeddingForDB numToStr v) = v :=
  parse_format_roundtrip numToStr parseF v
    (fun h => by rw [h] at hdim; simp at hdim) hinv hcomma

/-- C9 witness: the round trip evaluated on a concrete 384-dimension
    vector. -/
theorem c9_witness :
    parseEmbeddingFromDB (fun _ => (1 : ℚ))
      (formatEmbeddingForDB (fun _ => ['1']) (List.replicate 384 (1 : ℚ))) =
    List.replicate 384 (1 : ℚ) := by
  refine c9_embedding_roundtrip (fun _ => ['1']) (fun _ => (1 : ℚ))
    (List.replicate 384 (1 : ℚ)) (by simp) ?_ ?_
  · intro x hx
    rw [List.eq_of_mem_replicate hx]
  · intro x _
    show ',' ∉ (['1'] : JStr)
    decide

/-- C10: the textual round trip is guaranteed only for non-empty vectors
    (under the same serializer hypotheses as C9); the empty vector formats
    to "[]", and parsing "[]" yields the one-element list containing the
    result of `parseFloat` on the empty token (`NaN` in JavaScript, the
    abstract `parseF []` here), not the empty vector. -/
theorem c10_roundtrip_nonempty_only (numToStr : ℚ → JStr) (parseF : JStr → ℚ) :
    (∀ v : List ℚ, v ≠ [] → (∀ x ∈ v, parseF (numToStr x) = x) →
      (∀ x ∈ v, ',' ∉ numToStr x) →
      parseEmbeddingFromDB parseF (formatEmbeddingForDB numToStr v) = v) ∧
    formatEmbeddingForDB numToStr [] = "[]".data ∧
    parseEmbeddingFromDB parseF (formatEmbeddingForDB numToStr []) = [parseF []] := by
  refine ⟨fun v hv h1 h2 => parse_format_roundtrip numToStr parseF v hv h1 h2, rfl, rfl⟩

/-- C10 witness: the round trip on a concrete non-empty vector, and the
    formatted and re-parsed forms of the empty vector. -/
theorem c10_witness :
    parseEmbeddingFromDB (fun _ => (2 : ℚ))
      (formatEmbeddingForDB (fun _ => ['2']) [(2 : ℚ)]) = [(2 : ℚ)] ∧
    formatEmbeddingForDB (fun _ => ['2']) ([] : List ℚ) = "[]".data ∧
    parseEmbeddingFromDB (fun _ => (2 : ℚ))
      (formatEmbeddingForDB (fun _ => ['2']) ([] : List ℚ)) = [(2 : ℚ)] := by
  have h := c10_roundtrip_nonempty_only (fun _ => ['2']) (fun _ => (2 : ℚ))
  exact ⟨h.1 [(2 : ℚ)] (by simp) (by intro x hx; simp at hx; rw [hx]) (by intro x _; show ',' ∉ (['2'] : JStr); decide),
    h.2.1, h.2.2⟩

theorem persistLoop_length (numToStr : ℚ → JStr) (embedOf : JStr → Except JStr (List ℚ))
    (insertRes : ProcessedClause → Except JStr Unit) : ∀ (cs : List ProcessedClause),
    (persistLoop numToStr embedOf insertRes cs).length =
      (cs.filter (fun c => isOkE (embedOf c.text) && isOkE (insertRes c))).length
  | [] => by simp [persistLoop]
  | c :: rest => by
    have ih := persistLoop_length numToStr embedOf insertRes rest
    rw [persistLoop, List.length_append, ih, List.filter_cons]
    cases he : embedOf c.text <;> cases hi : insertRes c <;>
      simp [isOkE, he, hi] <;> omega

theorem length_filter_not_split (l : List α) (p : α → Bool) :
    (l.filter p).length + (l.filter (fun a => !p a)).length = l.length := by
  induction l with
  | nil => simp
  | cons a t ih =>
    cases h : p a <;> simp [List.filter_cons, h] <;> omega

/-- C2: for a successful extraction, a failure of the embedding or insert
    step of one clause is caught and does not abort the job: the contract
    still reaches status "analyzed" and the job status "completed", every
    clause contributes according to its own oracles (so all remaining
    clauses are attempted), and in particular with 10 segmented clauses,
    all inserts succeeding and exactly one clause failing at the embedding
    step, exactly 9 clause rows are persisted. -/
theorem c2_clause_failure_tolerance (deps : ExternalDeps) (numToStr : ℚ → JStr)
    (ex : Extraction) (embedOf : JStr → Except JStr (List ℚ))
    (insertRes : ProcessedClause → Except JStr Unit) :
    (processExtractText deps numToStr (.ok ex) embedOf insertRes).docStatus = "analyzed" ∧
    (processExtractText deps numToStr (.ok ex) embedOf insertRes).jobStatus = "completed" ∧
    (processExtractText deps numToStr (.ok ex) embedOf insertRes).persisted.length =
      ((extractAndClassifyClauses deps ex.text).filter
        (fun c => isOkE (embedOf c.text) && isOkE (insertRes c))).length ∧
    ((extractAndClassifyClauses deps ex.text).length = 10 →
      (∀ c, insertRes c = Except.ok ()) →
      ((extractAndClassifyClauses deps ex.text).filter
        (fun c => !(isOkE (embedOf c.text)))).length = 1 →
      (processExtractText deps numToStr (.ok ex) embedOf insertRes).persisted.length = 9) := by
  refine ⟨rfl, rfl, persistLoop_length numToStr embedOf insertRes _, ?_⟩
  intro h10 hins h1
  have hlen : (processExtractText deps numToStr (.ok ex) embedOf insertRes).persisted.length =
      ((extractAndClassifyClauses deps ex.text).filter
        (fun c => isOkE (embedOf c.text) && isOkE (insertRes c))).length :=
    persistLoop_length numToStr embedOf insertRes _
  have hc : ∀ c ∈ extractAndClassifyClauses deps ex.text,
      (isOkE (embedOf c.text) && isOkE (insertRes c)) = isOkE (embedOf c.text) := by
    intro c _
    rw [hins c]
    simp [isOkE]
  rw [hlen, List.filter_congr hc]
  have hsplit := length_filter_not_split (extractAndClassifyClauses deps ex.text)
    (fun c => isOkE (embedOf c.text))
  omega

/-- C2 witness: ten numbered sections, the embedding of the third failing,
    all inserts succeeding: the job completes, the contract is analyzed,
    and 9 rows persist. -/
theorem c2_witness :
    (processExtractText specDeps (fun _ => ['0']) (.ok ⟨wText, 1, 40⟩) wEmbedOf
      (fun _ => Except.ok ())).docStatus = "analyzed" ∧
    (processExtractText specDeps (fun _ => ['0']) (.ok ⟨wText, 1, 40⟩) wEmbedOf
      (fun _ => Except.ok ())).jobStatus = "completed" ∧
    (processExtractText specDeps (fun _ => ['0']) (.ok ⟨wText, 1, 40⟩) wEmbedOf
      (fun _ => Except.ok ())).persisted.length = 9 := by
  have h := c2_clause_failure_tolerance specDeps (fun _ => ['0']) ⟨wText, 1, 40⟩
    wEmbedOf (fun _ => Except.ok ())
  exact ⟨h.1, h.2.1, h.2.2.2 (by decide) (fun c => rfl) (by decide)⟩

/-- C3 (amended): when the job completes, the recorded result summary's
    clause count equals the number of segmented clauses
    (`extractAndClassifyClauses` output), including clauses whose per-clause
    processing failed — not the number of successfully persisted clauses. -/
theorem c3_clause_count_is_segmented_count (deps : ExternalDeps) (numToStr : ℚ → JStr)
    (ex : Extraction) (embedOf : JStr → Except JStr (List ℚ))
    (insertRes : ProcessedClause → Except JStr Unit) :
    (processExtractText deps numToStr (.ok ex) embedOf insertRes).jobResult =
      some { success := true, textLength := ex.text.length, pages := ex.pages,
             wordCount := ex.wordCount,
             clauseCount := (extractAndClassifyClauses deps ex.text).length } := rfl

/-- C3 counterexample: two segmented clauses, the embedding of the first
    failing: only one clause row is persisted, yet the recorded summary
    counts 2 — the recorded clause count is not the persisted count. -/
theorem c3_counterexample :
    ((processExtractText specDeps (fun _ => ['0']) (.ok ⟨c3Text, 1, 4⟩) c3EmbedOf
      (fun _ => Except.ok ())).jobResult.map JobSummary.clauseCount) = some 2 ∧
    (processExtractText specDeps (fun _ => ['0']) (.ok ⟨c3Text, 1, 4⟩) c3EmbedOf
      (fun _ => Except.ok ())).persisted.length = 1 := by
  exact ⟨by decide, by decide⟩

/-- C4: when text extraction fails, the contract status becomes "failed",
    the job becomes "failed" carrying the (non-null) error message, and no
    clause row is persisted in that run. -/
theorem c4_extraction_failure_outcome (deps : ExternalDeps) (numToStr : ℚ → JStr)
    (e : JStr) (embedOf : JStr → Except JStr (List ℚ))
    (insertRes : ProcessedClause → Except JStr Unit) :
    (processExtractText deps numToStr (.error e) embedOf insertRes).docStatus = "failed" ∧
    (processExtractText deps numToStr (.error e) embedOf insertRes).jobStatus = "failed" ∧
    (processExtractText deps numToStr (.error e) embedOf insertRes).jobError = some e ∧
    (processExtractText deps numToStr (.error e) embedOf insertRes).persisted = [] :=
  ⟨rfl, rfl, rfl, rfl⟩

end LexLens
